import Mathlib

/-!
Verification of the normalization / summarization core of the Indian-Law-Search
repository against its natural-language specification.

The Python sources under scraper-service/ and backend-apis/ are shallowly
embedded below: pure string and list manipulations become Lean functions on
String / List Char, regular-expression primitives (re.split, re.search,
re.findall, re.sub on character classes) become explicit scanning functions,
and the external sumy statistical summarizer becomes an oracle parameter.
-/

/-! ## Python string primitives -/

/-- Whitespace as recognised by Python str.strip / str.split / regex \s
(space, tab, newline, carriage return, vertical tab, form feed). -/
def pyIsSpace (c : Char) : Bool :=
  c == ' ' || c == '\t' || c == '\n' || c == '\r' || c == Char.ofNat 11 || c == Char.ofNat 12

/-- Python str.strip(): drop whitespace from both ends. -/
def pyStrip (s : String) : String :=
  ⟨((s.data.dropWhile pyIsSpace).reverse.dropWhile pyIsSpace).reverse⟩

/-- Python str.lower() (ASCII case mapping, the only case appearing in inputs). -/
def pyLower (s : String) : String :=
  ⟨s.data.map Char.toLower⟩

/-- Core of Python substring containment: does the needle occur at some
position of the hay? -/
def containsGo (needle : List Char) : List Char → Bool
  | [] => needle.isEmpty
  | c :: cs => needle.isPrefixOf (c :: cs) || containsGo needle cs

/-- Python substring containment: needle in hay. -/
def strContains (hay needle : String) : Bool :=
  containsGo needle.data hay.data

/-- Python sep.join(pieces). -/
def pyJoin (sep : String) : List String → String
  | [] => ""
  | [s] => s
  | s :: s₂ :: rest => s ++ sep ++ pyJoin sep (s₂ :: rest)

/-- Python list slicing xs[:n] for an int n: a non-negative n keeps the first
n elements, a negative n drops the last |n| elements (clamped at zero). -/
def pyTake (n : Int) (l : List α) : List α :=
  if 0 ≤ n then l.take n.toNat else l.take (l.length - (-n).toNat)

/-- Python list(set(xs)). Iteration order of a Python set is unspecified; the
model keeps the first occurrence of each element. No theorem below depends on
the order produced here. -/
def pyListSet (l : List String) : List String :=
  l.eraseDups

/-- Python str.endswith(".") : the last character is a period. -/
def pyEndsWithDot (s : String) : Bool :=
  s.data.getLast? == some '.'

/-! ## Scanning primitives for the regex fragments used by the sources

Each Python regex used by the repository is built from character classes,
literals, + / * / {n} repetition of classes (always followed by a disjoint
class, so greedy matching is exact maximal munch) and a few optional pieces.
A matcher takes the text from some start position and returns the rest of the
text after the match (plus a captured group where the source regex has one). -/

/-- Match a case-sensitive literal. -/
def litCS : List Char → List Char → Option (List Char)
  | [], cs => some cs
  | _ :: _, [] => none
  | p :: ps, c :: cs => if c == p then litCS ps cs else none

/-- Match a literal under re.IGNORECASE (pattern given in lowercase). -/
def litCI : List Char → List Char → Option (List Char)
  | [], cs => some cs
  | _ :: _, [] => none
  | p :: ps, c :: cs => if c.toLower == p then litCI ps cs else none

/-- Greedy p+ for a character class (exact whenever the following pattern
element cannot match a class character). -/
def classPlus (p : Char → Bool) : List Char → Option (List Char)
  | [] => none
  | c :: cs => if p c then some (cs.dropWhile p) else none

/-- Greedy p* for a character class. -/
def classStar (p : Char → Bool) (cs : List Char) : List Char :=
  cs.dropWhile p

/-- Match exactly n characters of a class (regex p{n}). -/
def classExact (p : Char → Bool) (n : Nat) (cs : List Char) : Option (List Char) :=
  if (cs.take n).length = n && (cs.take n).all p then some (cs.drop n) else none

/-- Regex \s+. -/
def wsPlus (cs : List Char) : Option (List Char) :=
  classPlus pyIsSpace cs

/-- Regex \s*. -/
def wsStar (cs : List Char) : List Char :=
  classStar pyIsSpace cs

/-- The apostrophe character. -/
def aposChar : Char := Char.ofNat 39

/-- Match a single character of a class. -/
def classOne (p : Char → Bool) : List Char → Option (List Char)
  | [] => none
  | c :: cs => if p c then some cs else none

/-- Optional literal character (regex c?). Never fails. -/
def optChar (c : Char) : List Char → List Char
  | [] => []
  | c' :: cs => if c' == c then cs else c' :: cs

/-- re.search with a prefix matcher: does the pattern match starting at some
position of the text? -/
def scanExists (m : List Char → Option (List Char)) : List Char → Bool
  | [] => (m []).isSome
  | c :: cs => (m (c :: cs)).isSome || scanExists m cs

/-- One step of re.findall for a group-free pattern: the whole match is
reported and scanning resumes after it (all patterns used by the sources
consume at least one character, so the empty-match guard never fires). -/
def findAllGo (m : List Char → Option (List Char)) : Nat → List Char → List String
  | 0, _ => []
  | _, [] => []
  | fuel + 1, c :: cs =>
    match m (c :: cs) with
    | some rest =>
      let len := (c :: cs).length - rest.length
      if len = 0 then "" :: findAllGo m fuel cs
      else ⟨(c :: cs).take len⟩ :: findAllGo m fuel rest
    | none => findAllGo m fuel cs

/-- re.findall for a group-free pattern. -/
def findAll (m : List Char → Option (List Char)) (s : String) : List String :=
  findAllGo m (s.data.length + 1) s.data

/-- re.findall for a pattern with one capturing group: the matcher returns the
captured group and the rest of the text after the whole match. -/
def findAllGGo (m : List Char → Option (List Char × List Char)) :
    Nat → List Char → List String
  | 0, _ => []
  | _, [] => []
  | fuel + 1, c :: cs =>
    match m (c :: cs) with
    | some (grp, rest) =>
      let len := (c :: cs).length - rest.length
      if len = 0 then ⟨grp⟩ :: findAllGGo m fuel cs
      else ⟨grp⟩ :: findAllGGo m fuel rest
    | none => findAllGGo m fuel cs

/-- re.findall returning the capturing group of each match. -/
def findAllG (m : List Char → Option (List Char × List Char)) (s : String) : List String :=
  findAllGGo m (s.data.length + 1) s.data

/-! ## backend-apis/summarizer.py : LegalCaseSummarizer -/

/-- Verdict / disposition keywords of LegalCaseSummarizer.legal_keywords. -/
def legal_keywords : List String :=
  ["held", "directed", "guidelines", "ordered", "ruled", "decided",
   "concluded", "determined", "found", "established", "declared",
   "maintained", "observed", "noted", "emphasized", "highlighted",
   "clarified", "interpreted", "construed", "applied", "followed",
   "overruled", "distinguished", "approved", "disapproved", "rejected",
   "allowed", "dismissed", "quashed", "set aside", "remanded",
   "affirmed", "reversed", "modified", "varied", "substituted"]

/-- Court keywords of LegalCaseSummarizer.court_keywords. -/
def court_keywords : List String :=
  ["supreme court", "high court", "district court", "tribunal",
   "commission", "authority", "board", "council"]

/-- Statutory-reference keywords of LegalCaseSummarizer.section_keywords. -/
def section_keywords : List String :=
  ["section", "article", "clause", "sub-section", "proviso",
   "schedule", "act", "code", "regulation", "rule"]

/-- Word character for the regex word boundary \b. -/
def isWordChar (c : Char) : Bool :=
  c.isAlphanum || c == '_'

/-- Citation pattern of summarizer.py line 93, a parenthesized 4-digit year
followed by number, uppercase reporter code and number. Every repeated class
is followed by a disjoint class, so maximal munch is exact. -/
def matchCitationAt (cs : List Char) : Option (List Char) := do
  let r ← classOne (· == '(') cs
  let r ← classExact Char.isDigit 4 r
  let r ← classOne (· == ')') r
  let r ← wsPlus r
  let r ← classPlus Char.isDigit r
  let r ← wsPlus r
  let r ← classPlus Char.isUpper r
  let r ← wsPlus r
  let _ ← classPlus Char.isDigit r
  pure []

/-- re.search for the citation pattern. -/
def matchCitation (s : String) : Bool :=
  scanExists matchCitationAt s.data

/-- One alternative of the party-separator pattern of line 97 at the current
position (the leading word boundary is checked by the caller): vs or versus
followed by a word boundary, or v. followed by a word character. -/
def vsAltAt (cs : List Char) : Bool :=
  (match litCI "vs".data cs with
   | some rest => match rest with | [] => true | c :: _ => !isWordChar c
   | none => false) ||
  (match litCI "versus".data cs with
   | some rest => match rest with | [] => true | c :: _ => !isWordChar c
   | none => false) ||
  (match litCI "v.".data cs with
   | some rest => match rest with | [] => false | c :: _ => isWordChar c
   | none => false)

/-- Scan for the party-separator pattern, tracking the previous character for
the leading word boundary (all alternatives start with the word character v). -/
def scanVsGo : Option Char → List Char → Bool
  | _, [] => false
  | prev, c :: cs =>
    ((match prev with | none => true | some p => !isWordChar p) && vsAltAt (c :: cs))
      || scanVsGo (some c) cs

/-- re.search of the case-insensitive party-separator pattern. -/
def matchVs (s : String) : Bool :=
  scanVsGo none s.data

/-- Judge-name pattern of line 101: the literal Justice, whitespace, then an
uppercase letter (case-sensitive). -/
def matchJusticeScoreAt (cs : List Char) : Option (List Char) := do
  let r ← litCS "Justice".data cs
  let r ← wsPlus r
  let _ ← classOne Char.isUpper r
  pure []

/-- re.search for the judge-name scoring pattern. -/
def matchJusticeScore (s : String) : Bool :=
  scanExists matchJusticeScoreAt s.data

/-- Greedy-with-backtracking d{1,2} of the date pattern: try two digits,
then one. -/
def rep12 (next : List Char → Bool) : List Char → Bool
  | [] => false
  | c :: cs =>
    c.isDigit &&
      (match cs with
       | c₂ :: cs₂ => (c₂.isDigit && next cs₂) || next cs
       | [] => next cs)

/-- The separator class of the date pattern. -/
def dashSlash (next : List Char → Bool) : List Char → Bool
  | [] => false
  | c :: cs => (c == '-' || c == '/') && next cs

/-- Date pattern of line 105 at the current position. -/
def matchDateAt (cs : List Char) : Bool :=
  rep12 (dashSlash (rep12 (dashSlash (fun r => (classExact Char.isDigit 4 r).isSome)))) cs

/-- Boolean re.search scanner. -/
def scanExistsB (m : List Char → Bool) : List Char → Bool
  | [] => m []
  | c :: cs => m (c :: cs) || scanExistsB m cs

/-- re.search for the numeric date pattern. -/
def matchDate (s : String) : Bool :=
  scanExistsB matchDateAt s.data

/-- Heuristic score of one sentence, the loop body of
extract_key_sentences_regex (summarizer.py lines 74 to 112). -/
def scoreSentence (sentence : String) : Nat :=
  let lower := pyLower sentence
  let sc := legal_keywords.foldl (fun sc k => if strContains lower k then sc + 3 else sc) 0
  let sc := court_keywords.foldl (fun sc k => if strContains lower k then sc + 2 else sc) sc
  let sc := section_keywords.foldl (fun sc k => if strContains lower k then sc + 2 else sc) sc
  let sc := if matchCitation sentence then sc + 3 else sc
  let sc := if matchVs sentence then sc + 2 else sc
  let sc := if matchJusticeScore sentence then sc + 2 else sc
  let sc := if matchDate sentence then sc + 1 else sc
  if 100 < sentence.length then sc + 1 else sc

/-- Sentence-terminal punctuation of the regex [.!?]+. -/
def isTermChar (c : Char) : Bool :=
  c == '.' || c == '!' || c == '?'

/-- State machine for re.split on one-or-more terminal characters: inRun
records whether the previous character was terminal (the current fragment is
emitted when a run starts and restarted when it ends). -/
def splitRunsGo : List Char → Bool → List Char → List (List Char)
  | [], _, cur => [cur.reverse]
  | c :: cs, inRun, cur =>
    if isTermChar c then
      if inRun then splitRunsGo cs true cur
      else cur.reverse :: splitRunsGo cs true []
    else splitRunsGo cs false (c :: cur)

/-- re.split on [.!?]+ as used by summarizer.py lines 68, 180 and 210. -/
def reSplitTerm (s : String) : List String :=
  (splitRunsGo s.data false []).map (fun l => ⟨l⟩)

/-- The split fragments, stripped. -/
def segmentFragments (text : String) : List String :=
  (reSplitTerm text).map pyStrip

/-- Stripped fragments longer than a minimum length; the comprehension
[s.strip() for s in sentences if len(s.strip()) > n] filters on the stripped
length and keeps the stripped string, which is the same as mapping strip
first and then filtering. -/
def sentencesMin (text : String) (minLen : Nat) : List String :=
  (segmentFragments text).filter (fun s => minLen < s.length)

/-- Descending order on the heuristic score, the key of the in-place
Python sort with reverse=True. -/
def scoredDesc (a b : String × Nat) : Prop :=
  b.2 ≤ a.2

instance : DecidableRel scoredDesc :=
  fun a b => Nat.decLe b.2 a.2

/-- The Python list.sort with key=score and reverse=True is a stable sort:
elements of equal score keep their original order. Insertion sort with the
reflexive descending order places each element before the equal-score
elements that followed it, which is exactly the stable descending sort, and
any two stable sorts agree, so this models the source sort exactly. -/
def sortScored (l : List (String × Nat)) : List (String × Nat) :=
  l.insertionSort scoredDesc

/-- summarizer.py extract_key_sentences_regex (lines 60 to 118).
max_sentences is an int; the final scored_sentences[:max_sentences] is a
Python slice, so a negative count silently drops trailing elements. -/
def extract_key_sentences_regex (text : String) (max_sentences : Int) : List String :=
  if text = "" ∨ (pyStrip text).length < 100 then []
  else
    let sentences := sentencesMin text 20
    let scored := sentences.map (fun s => (s, scoreSentence s))
    (pyTake max_sentences (sortScored scored)).map Prod.fst

/-- The three summarizer choices of extract_summary_sumy. -/
inductive SumyMethod
  | lsa
  | lexrank
  | textrank
deriving DecidableEq

/-- Method dispatch of summarizer.py lines 132 to 139: an unrecognised
method string silently falls back to the LSA summarizer. -/
def chooseSummarizer (method : String) : SumyMethod :=
  if method = "lsa" then SumyMethod.lsa
  else if method = "lexrank" then SumyMethod.lexrank
  else if method = "textrank" then SumyMethod.textrank
  else SumyMethod.lsa

/-- The external sumy library (parser, tokenizer and summarizer): given the
text, the sentence count and the chosen summarizer it either returns sentence
strings or raises. It is a parameter of the embedding because the library is
not part of this repository. -/
def SumyOracle : Type :=
  String → Int → SumyMethod → Except String (List String)

/-- summarizer.py extract_summary_sumy (lines 120 to 152): the whole body runs
inside try/except, any raised error is logged and an empty list returned. -/
def extract_summary_sumy (oracle : SumyOracle) (text : String) (max_sentences : Int)
    (method : String) : List String :=
  match (if text = "" ∨ (pyStrip text).length < 200 then Except.ok []
         else oracle text max_sentences (chooseSummarizer method)) with
  | Except.ok l => l
  | Except.error _ => []

/-- One iteration of the accumulation loops of extract_hybrid_summary: append
the sentence if it is new and the target count is not reached. -/
def addUnique (max_sentences : Int) (acc : List String) (s : String) : List String :=
  if s ∉ acc ∧ (acc.length : Int) < max_sentences then acc ++ [s] else acc

/-- summarizer.py extract_hybrid_summary (lines 154 to 191): regex sentences
first, then sumy sentences, then plain leading fragments longer than 50
characters; the try/except around the body is dead in the embedding because
every step is total. -/
def extract_hybrid_summary (oracle : SumyOracle) (text : String)
    (max_sentences : Int) : List String :=
  let regexSentences := extract_key_sentences_regex text max_sentences
  let sumySentences := extract_summary_sumy oracle text max_sentences "lsa"
  let all₁ := regexSentences.foldl (addUnique max_sentences) []
  let all₂ := sumySentences.foldl (addUnique max_sentences) all₁
  if (all₂.length : Int) < max_sentences then
    (sentencesMin text 50).foldl (addUnique max_sentences) all₂
  else all₂

/-- The sentence-selection chain of extract_case_summary (summarizer.py lines
202 to 212): the hybrid result, else the regex result, else the leading
stripped fragments longer than 30 characters cut to max_sentences. -/
def selected_sentences (oracle : SumyOracle) (case_text : String)
    (max_sentences : Int) : List String :=
  let s₁ := extract_hybrid_summary oracle case_text max_sentences
  let s₂ := if s₁ = [] then extract_key_sentences_regex case_text max_sentences else s₁
  if s₂ = [] then pyTake max_sentences (sentencesMin case_text 30) else s₂

/-- summarizer.py extract_case_summary (lines 193 to 227). An empty case_text
returns the empty string; case_title=None and the empty title are both falsy
in the source, so the title is modelled as a string tested against "". -/
def extract_case_summary (oracle : SumyOracle) (case_text case_title : String)
    (max_sentences : Int) : String :=
  if case_text = "" then ""
  else
    let joined := pyJoin ". " (selected_sentences oracle case_text max_sentences)
    let summary := if pyEndsWithDot joined then joined else joined ++ "."
    if case_title = "" then summary else case_title ++ ": " ++ summary

/-! ## scraper-service/unified_scraper.py -/

namespace Unified

/-- re.sub removing every character that is not alphanumeric and not
whitespace (save_case line 36). -/
def clean_title (title : String) : String :=
  ⟨title.data.filter (fun c => c.isAlphanum || pyIsSpace c)⟩

/-- Python str.split() with no argument: whitespace-delimited tokens, empty
tokens dropped. -/
def pySplitWsGo : List Char → List Char → List (List Char)
  | [], cur => if cur.isEmpty then [] else [cur.reverse]
  | c :: cs, cur =>
    if pyIsSpace c then
      if cur.isEmpty then pySplitWsGo cs [] else cur.reverse :: pySplitWsGo cs []
    else pySplitWsGo cs (c :: cur)

/-- Python str.split() on a string. -/
def pySplitWs (s : String) : List String :=
  (pySplitWsGo s.data []).map (fun l => ⟨l⟩)

/-- save_case lines 36 to 38: first three whitespace tokens of the cleaned
title, joined with an underscore, lowercased. -/
def id_suffix (title : String) : String :=
  pyLower (pyJoin "_" ((pySplitWs (clean_title title)).take 3))

/-- save_case line 39: the digits of the date, first eight. -/
def clean_date (date : String) : String :=
  ⟨(date.data.filter Char.isDigit).take 8⟩

/-- save_case lines 41 to 45: the court-name-to-code dictionary with default
value court. -/
def court_code (court : String) : String :=
  if court = "Supreme Court of India" then "sc"
  else if court = "Delhi High Court" then "dhc"
  else if court = "Bombay High Court" then "bhc"
  else "court"

/-- save_case line 47: composition of the judgment id from a court code,
the normalized title tokens and the date digits. -/
def make_key (code title date : String) : String :=
  code ++ "_" ++ id_suffix title ++ "_" ++ clean_date date

/-- The full judgment id computed inside save_case (lines 34 to 47). -/
def judgment_id (court title date : String) : String :=
  make_key (court_code court) title date

/-- unified_scraper.py generate_summary (lines 84 to 94). -/
def generate_summary (text : String) : String :=
  if text = "" then "Judgment summary"
  else
    let summary := pyStrip ⟨text.data.take 200⟩
    if 200 < text.length then summary ++ "..." else summary

/-- First section pattern of extract_referenced_sections (IGNORECASE):
the Section literal, whitespace, digits, letters, whitespace, the of
literal, whitespace, letters. -/
def uSectionOfM (cs : List Char) : Option (List Char) := do
  let r ← litCI "section".data cs
  let r ← wsPlus r
  let r ← classPlus Char.isDigit r
  let r := classStar Char.isAlpha r
  let r ← wsPlus r
  let r ← litCI "of".data r
  let r ← wsPlus r
  classPlus Char.isAlpha r

/-- Second section pattern (IGNORECASE): letters, whitespace, the Section
literal, whitespace, digits, letters. -/
def uWordSectionM (cs : List Char) : Option (List Char) := do
  let r ← classPlus Char.isAlpha cs
  let r ← wsPlus r
  let r ← litCI "section".data r
  let r ← wsPlus r
  let r ← classPlus Char.isDigit r
  pure (classStar Char.isAlpha r)

/-- Third section pattern (IGNORECASE): at least two letters, whitespace,
digits, letters. -/
def uAbbrNumM (cs : List Char) : Option (List Char) := do
  let r₁ ← classOne Char.isAlpha cs
  let r ← classPlus Char.isAlpha r₁
  let r ← wsPlus r
  let r ← classPlus Char.isDigit r
  pure (classStar Char.isAlpha r)

/-- unified_scraper.py extract_referenced_sections (lines 96 to 114). -/
def extract_referenced_sections (text : String) : List String :=
  if text = "" then []
  else pyListSet (findAll uSectionOfM text ++ findAll uWordSectionM text ++ findAll uAbbrNumM text)

/-- The fixed tag vocabulary of generate_tags. -/
def legal_terms : List String :=
  ["bail", "anticipatory", "constitutional", "criminal", "civil",
   "writ", "petition", "appeal", "revision", "review",
   "498A", "IPC", "CrPC", "CPC", "Constitution"]

/-- unified_scraper.py generate_tags (lines 116 to 132): a term is appended
verbatim when its lowercase form occurs in the lowercased title plus text. -/
def generate_tags (title text : String) : List String :=
  let combined := pyLower (title ++ " " ++ text)
  legal_terms.foldl
    (fun tags term => if strContains combined (pyLower term) then tags ++ [term] else tags) []

/-- The judgment document built by save_case (lines 57 to 71); the database
connection and the duplicate check around it are external I/O. The scraped_at
field records datetime.now() at the time of the call, modelled as the now
argument. -/
structure JudgmentDoc where
  id : String
  case_title : String
  court : String
  judges : List String
  date : String
  citation : String
  pdf_url : String
  text : String
  summary : String
  referenced_sections : List String
  tags : List String
  source_url : String
  scraped_at : String

/-- unified_scraper.py save_case (lines 28 to 78), restricted to the pure
document construction: citation or source_url equal to None become the empty
string via the or-defaults of lines 63 and 69. -/
def save_case_doc (now : String) (court title date : String) (judges : List String)
    (pdf_url text : String) (citation source_url : Option String) : JudgmentDoc where
  id := judgment_id court title date
  case_title := title
  court := court
  judges := judges
  date := date
  citation := citation.getD ""
  pdf_url := pdf_url
  text := text
  summary := generate_summary text
  referenced_sections := extract_referenced_sections text
  tags := generate_tags title text
  source_url := source_url.getD ""
  scraped_at := now

end Unified

/-! ## scraper-service/bhc_scraper.py : BombayHCScraper -/

namespace Bhc

/-- The captured name group of every bhc judge pattern under IGNORECASE:
a letter followed by one or more letters, then greedily zero or more
whitespace-plus-word units, the group text including that whitespace. -/
def parseNameGo : Nat → List Char → List Char → (List Char × List Char)
  | 0, acc, cs => (acc, cs)
  | fuel + 1, acc, cs =>
    let ws := cs.takeWhile pyIsSpace
    let r := cs.dropWhile pyIsSpace
    if ws.isEmpty then (acc, cs)
    else
      match r with
      | c :: r₁ =>
        if c.isAlpha then
          let ls := r₁.takeWhile Char.isAlpha
          if ls.isEmpty then (acc, cs)
          else parseNameGo fuel (acc ++ ws ++ c :: ls) (r₁.dropWhile Char.isAlpha)
        else (acc, cs)
      | [] => (acc, cs)

/-- Parse the name group, returning the captured characters and the rest. -/
def parseName (cs : List Char) : Option (List Char × List Char) :=
  match cs with
  | c :: cs₁ =>
    if c.isAlpha then
      let ls := cs₁.takeWhile Char.isAlpha
      if ls.isEmpty then none
      else some (parseNameGo cs.length (c :: ls) (cs₁.dropWhile Char.isAlpha))
    else none
  | [] => none

/-- Continuation shared by the honorific pattern: the Justice literal,
whitespace, then the name group. -/
def justiceName (cs : List Char) : Option (List Char × List Char) := do
  let r ← litCI "justice".data cs
  let r ← wsPlus r
  parseName r

/-- First judge pattern (IGNORECASE): optional apostrophe inside the
honorific, an optional Mr piece with optional period, then Justice and the
name group; when the optional Mr piece matches but the rest fails, the
pattern retries without it, exactly as the regex backtracks. -/
def honbleJusticeM (cs : List Char) : Option (List Char × List Char) := do
  let r ← litCI "hon".data cs
  let r := optChar aposChar r
  let r ← litCI "ble".data r
  let r ← wsPlus r
  (do
    let r₂ ← litCI "mr".data r
    let r₂ := optChar '.' r₂
    let r₂ ← wsPlus r₂
    justiceName r₂) <|> justiceName r

/-- Second judge pattern (IGNORECASE): Justice plus the name group. -/
def justiceM (cs : List Char) : Option (List Char × List Char) :=
  justiceName cs

/-- Third judge pattern (IGNORECASE): the J. literal, optional whitespace,
then the name group. -/
def jDotM (cs : List Char) : Option (List Char × List Char) := do
  let r ← litCI "j.".data cs
  parseName (wsStar r)

/-- Fourth judge pattern (IGNORECASE): the Coram literal, optional
whitespace, a colon, optional whitespace, then the name group. -/
def coramM (cs : List Char) : Option (List Char × List Char) := do
  let r ← litCI "coram".data cs
  let r ← classOne (· == ':') (wsStar r)
  parseName (wsStar r)

/-- The concatenated findall results of the four judge patterns
(bhc_scraper.py lines 180 to 193). -/
def judgesRaw (pageText : String) : List String :=
  findAllG honbleJusticeM pageText ++ findAllG justiceM pageText ++
    findAllG jDotM pageText ++ findAllG coramM pageText

/-- bhc_scraper.py extract_judges (lines 178 to 195): deduplicated matches,
or the fixed Bombay High Court placeholder when nothing matched. -/
def extract_judges (pageText : String) : List String :=
  if judgesRaw pageText = [] then ["Bombay High Court"] else pyListSet (judgesRaw pageText)

/-- bhc_scraper.py generate_judgment_id (lines 263 to 273): same title and
date normalization as save_case, with the fixed bhc court code. -/
def clean_title (title : String) : String :=
  ⟨title.data.filter (fun c => c.isAlphanum || pyIsSpace c)⟩

/-- First three whitespace tokens of the cleaned title, joined with an
underscore and lowercased (lines 266 to 268). -/
def id_suffix (title : String) : String :=
  pyLower (pyJoin "_" ((Unified.pySplitWs (clean_title title)).take 3))

/-- The digits of the date, first eight (line 271). -/
def clean_date (date : String) : String :=
  ⟨(date.data.filter Char.isDigit).take 8⟩

/-- The composed bhc judgment id (line 273). -/
def generate_judgment_id (title date : String) : String :=
  "bhc" ++ "_" ++ id_suffix title ++ "_" ++ clean_date date

end Bhc

/-! ## scraper-service/sc_scraper.py : SCJudgmentScraper -/

namespace Sc

/-- First judge pattern (case-sensitive): the Justice literal, whitespace,
an uppercase letter, then lowercase letters. -/
def justiceM (cs : List Char) : Option (List Char) := do
  let r ← litCS "Justice".data cs
  let r ← wsPlus r
  let r ← classOne Char.isUpper r
  classPlus Char.isLower r

/-- Second judge pattern (case-sensitive): the honorific with its mandatory
apostrophe, then the Justice form. -/
def honbleJusticeM (cs : List Char) : Option (List Char) := do
  let r ← litCS "Hon".data cs
  let r ← classOne (· == aposChar) r
  let r ← litCS "ble".data r
  let r ← wsPlus r
  justiceM r

/-- Third judge pattern (case-sensitive): the Mr. literal, whitespace, then
the Justice form. -/
def mrJusticeM (cs : List Char) : Option (List Char) := do
  let r ← litCS "Mr".data cs
  let r ← classOne (· == '.') r
  let r ← wsPlus r
  justiceM r

/-- The concatenated findall results of the three judge patterns
(sc_scraper.py lines 156 to 166). -/
def judgesRaw (pageText : String) : List String :=
  findAll justiceM pageText ++ findAll honbleJusticeM pageText ++ findAll mrJusticeM pageText

/-- sc_scraper.py extract_judges (lines 153 to 168): deduplicated matches,
or the Unknown Judge sentinel when nothing matched. -/
def extract_judges (pageText : String) : List String :=
  if judgesRaw pageText = [] then ["Unknown Judge"] else pyListSet (judgesRaw pageText)

/-- Collapse runs of underscores (re.sub of line 233); the flag records
whether the previous kept character was an underscore. -/
def collapseUnderscoresGo : List Char → Bool → List Char
  | [], _ => []
  | c :: cs, prevU =>
    if c = '_' then
      if prevU then collapseUnderscoresGo cs true
      else '_' :: collapseUnderscoresGo cs true
    else c :: collapseUnderscoresGo cs false

/-- sc_scraper.py generate_judgment_id (lines 229 to 238): lowercase the
title, replace every non-alphanumeric character by an underscore, collapse
underscore runs, truncate to 50 characters; keep every digit of the date. -/
def generate_judgment_id (title date : String) : String :=
  let slug := (pyLower title).data.map (fun c => if c.isAlphanum then c else '_')
  let slug := (collapseUnderscoresGo slug false).take 50
  let dateSlug := date.data.filter Char.isDigit
  "sc" ++ "_" ++ ⟨slug⟩ ++ "_" ++ ⟨dateSlug⟩

/-- sc_scraper.py generate_summary (lines 240 to 250). -/
def generate_summary (text : String) : String :=
  if text = "" then ""
  else
    let summary := pyStrip ⟨text.data.take 500⟩
    if 500 < text.length then summary ++ "..." else summary

/-- Second sc section pattern (IGNORECASE): the Article literal, whitespace,
digits, letters. -/
def articleM (cs : List Char) : Option (List Char) := do
  let r ← litCI "article".data cs
  let r ← wsPlus r
  let r ← classPlus Char.isDigit r
  pure (classStar Char.isAlpha r)

/-- Third sc section pattern (IGNORECASE): letters, whitespace, digits,
letters. -/
def abbrNumM (cs : List Char) : Option (List Char) := do
  let r ← classPlus Char.isAlpha cs
  let r ← wsPlus r
  let r ← classPlus Char.isDigit r
  pure (classStar Char.isAlpha r)

/-- Fourth sc section pattern (IGNORECASE): the Section literal, whitespace,
digits, letters. -/
def sectionNumM (cs : List Char) : Option (List Char) := do
  let r ← litCI "section".data cs
  let r ← wsPlus r
  let r ← classPlus Char.isDigit r
  pure (classStar Char.isAlpha r)

/-- sc_scraper.py extract_referenced_sections (lines 252 to 267); the first
pattern is shared verbatim with unified_scraper. -/
def extract_referenced_sections (text : String) : List String :=
  pyListSet (findAll Unified.uSectionOfM text ++ findAll articleM text ++
    findAll abbrNumM text ++ findAll sectionNumM text)

/-- The keyword table of sc generate_tags (lines 277 to 284), in dict
insertion order. -/
def legal_areas : List (String × List String) :=
  [("constitutional law", ["constitution", "fundamental rights", "article"]),
   ("criminal law", ["criminal", "penal", "offence", "punishment"]),
   ("civil law", ["civil", "contract", "tort", "property"]),
   ("family law", ["marriage", "divorce", "custody", "family"]),
   ("commercial law", ["commercial", "business", "company", "corporate"]),
   ("administrative law", ["administrative", "government", "public"])]

/-- sc_scraper.py generate_tags (lines 269 to 291). -/
def generate_tags (title text : String) : List String :=
  let combined := pyLower (title ++ " " ++ text)
  legal_areas.foldl
    (fun tags ak => if ak.2.any (fun k => strContains combined k) then tags ++ [ak.1] else tags)
    ["supreme court"]

/-- The judgment document built by extract_judgment_info (sc_scraper.py lines
93 to 108) from the already-extracted page data; the two datetime.utcnow()
calls are modelled as the created_at and updated_at arguments. -/
structure ScJudgmentDoc where
  id : String
  case_title : String
  court : String
  judges : List String
  date : String
  citation : String
  pdf_url : String
  text : String
  summary : String
  referenced_sections : List String
  source_url : String
  tags : List String
  created_at : String
  updated_at : String

/-- The pure document construction of extract_judgment_info. -/
def judgment_doc (created_at updated_at : String) (title date : String)
    (judges : List String) (citation pdf_url pdf_text source_url : String) : ScJudgmentDoc where
  id := generate_judgment_id title date
  case_title := title
  court := "Supreme Court of India"
  judges := judges
  date := date
  citation := citation
  pdf_url := pdf_url
  text := pdf_text
  summary := generate_summary pdf_text
  referenced_sections := extract_referenced_sections pdf_text
  source_url := source_url
  tags := generate_tags title pdf_text
  created_at := created_at
  updated_at := updated_at

end Sc

/-- A sumy oracle that always fails, as when the underlying numerical
routine raises on a degenerate matrix. -/
def errOracle : SumyOracle := fun _ _ _ => Except.error "numeric failure"

/-- A sumy oracle that always succeeds with one fixed sentence. -/
def okOracle : SumyOracle := fun _ _ _ => Except.ok ["STAT"]

/-- A fixture text longer than 200 characters, so the sumy stage is reached. -/
def longLegalText : String :=
  "The Supreme Court of India held that the appellant is entitled to anticipatory bail under Section 438 of the Code of Criminal Procedure and the order of the High Court dismissing the application for bail was set aside accordingly."

/-- A fixture text with three scoreable sentences. -/
def threeSentenceText : String :=
  "The court held that the appellant is entitled to bail. The tribunal dismissed the appeal of the state. The order was quashed and the matter remanded for retrial."

/-! ## Specification-side definitions (for comparison with the code) -/

/-- Formalisation of the title normalization described in section 4.6 of the
specification: strip every character that is neither alphanumeric nor a
whitespace delimiter, take the first three whitespace-delimited tokens,
lowercase them and join with an underscore. -/
def specTitleTokens (title : String) : String :=
  pyJoin "_"
    (((Unified.pySplitWs ⟨title.data.filter (fun c => c.isAlphanum || pyIsSpace c)⟩).take 3).map
      pyLower)

/-- Formalisation of the date normalization described in section 4.6 of the
specification: strip the non-digits and take the first eight digits. -/
def specDateDigits (date : String) : String :=
  ⟨(date.data.filter Char.isDigit).take 8⟩

/-- Formalisation of the key composition described in section 4.6 of the
specification. -/
def specMakeKey (code title date : String) : String :=
  code ++ "_" ++ specTitleTokens title ++ "_" ++ specDateDigits date

/-! ## Helper lemmas -/

theorem pyLower_append (a b : String) : pyLower (a ++ b) = pyLower a ++ pyLower b := by
  cases a with
  | mk la =>
    cases b with
    | mk lb =>
      show String.mk ((la ++ lb).map Char.toLower) = String.mk (la.map Char.toLower ++ lb.map Char.toLower)
      rw [List.map_append]

theorem pyLower_join_underscore (ws : List String) :
    pyLower (pyJoin "_" ws) = pyJoin "_" (ws.map pyLower) := by
  induction ws with
  | nil => rfl
  | cons s rest ih =>
    cases rest with
    | nil => rfl
    | cons s₂ rest₂ =>
      show pyLower (s ++ "_" ++ pyJoin "_" (s₂ :: rest₂)) =
        pyLower s ++ "_" ++ pyJoin "_" ((s₂ :: rest₂).map pyLower)
      rw [pyLower_append, pyLower_append, ih]
      rfl

/-! ## Claim theorems -/

/-- Claim C2: the dedup key generator strips non-alphanumeric characters from
the title, takes the first three whitespace tokens lowercased and joined with
an underscore, takes the first eight digits of the date, and composes
code_titletokens_datedigits; on the Arnesh Kumar scenario it produces exactly
sc_arnesh_kumar_vs_20140702. -/
theorem make_key_matches_spec_and_scenario :
    (∀ code title date, Unified.make_key code title date = specMakeKey code title date) ∧
    Unified.make_key "sc" "Arnesh Kumar vs State of Bihar" "2014-07-02" =
      "sc_arnesh_kumar_vs_20140702" := by
  constructor
  · intro code title date
    show code ++ "_" ++ Unified.id_suffix title ++ "_" ++ Unified.clean_date date =
      code ++ "_" ++ specTitleTokens title ++ "_" ++ specDateDigits date
    have h : Unified.id_suffix title = specTitleTokens title := by
      show pyLower (pyJoin "_" ((Unified.pySplitWs (Unified.clean_title title)).take 3)) = _
      rw [pyLower_join_underscore]
      rfl
    rw [h]
    rfl
  · decide

/-- Claim C3: the dedup key computed by save_case and by the SC document
builder is a pure function of the court, title and date arguments: it does
not depend on the ambient invocation time, while the scraped_at and
created_at fields do record that time. -/
theorem dedup_key_invocation_independent
    (now₁ now₂ court title date : String) (judges : List String)
    (pdf_url text : String) (citation source_url : Option String)
    (c₁ u₁ c₂ u₂ : String) (sjudges : List String) (scit spdf stext ssrc : String) :
    (Unified.save_case_doc now₁ court title date judges pdf_url text citation source_url).id =
      (Unified.save_case_doc now₂ court title date judges pdf_url text citation source_url).id ∧
    (Unified.save_case_doc now₁ court title date judges pdf_url text citation source_url).id =
      Unified.make_key (Unified.court_code court) title date ∧
    (Unified.save_case_doc now₁ court title date judges pdf_url text citation source_url).scraped_at
      = now₁ ∧
    (Sc.judgment_doc c₁ u₁ title date sjudges scit spdf stext ssrc).id =
      (Sc.judgment_doc c₂ u₂ title date sjudges scit spdf stext ssrc).id ∧
    (Sc.judgment_doc c₁ u₁ title date sjudges scit spdf stext ssrc).created_at = c₁ :=
  ⟨rfl, rfl, rfl, rfl, rfl⟩

/-- Claim C10: the dedup-key computation embedded in unified_scraper.save_case
and the one in bhc_scraper.generate_judgment_id produce the same normalized
title-tokens and date-digits components, so the keys agree up to the court
code. -/
theorem bhc_unified_key_components_agree (title date : String) :
    Bhc.id_suffix title = Unified.id_suffix title ∧
    Bhc.clean_date date = Unified.clean_date date ∧
    Bhc.generate_judgment_id title date =
      "bhc" ++ "_" ++ Unified.id_suffix title ++ "_" ++ Unified.clean_date date :=
  ⟨rfl, rfl, rfl⟩

/-- Claim C7: the heuristic score of the anticipatory-bail scenario sentence
is at least five. -/
theorem scenario_heuristic_score_ge_five :
    5 ≤ scoreSentence
      "The court held that the appellant is entitled to anticipatory bail under Section 438." := by
  decide

/-- Claim C4: any failure of the external statistical summarizer is caught
inside extract_summary_sumy and yields the empty sentence list; no failure
propagates to the caller. -/
theorem sumy_failure_caught_empty (oracle : SumyOracle) (text : String) (n : Int)
    (method e : String)
    (h : oracle text n (chooseSummarizer method) = Except.error e) :
    extract_summary_sumy oracle text n method = [] := by
  unfold extract_summary_sumy
  by_cases hc : text = "" ∨ (pyStrip text).length < 200
  · simp [hc]
  · simp [hc, h]

/-- Witness for C4 at a concrete failing oracle. -/
theorem sumy_failure_caught_empty_witness :
    extract_summary_sumy errOracle "text sample" 4 "lsa" = [] :=
  sumy_failure_caught_empty errOracle "text sample" 4 "lsa" "numeric failure" rfl

/-- Claim C9, counterexample: on an input where no judge pattern matches, the
Bombay scraper returns the court-name placeholder, not an unknown-judge
sentinel value. -/
theorem bhc_no_match_not_unknown_judge_cx :
    Bhc.judgesRaw "" = [] ∧
    Bhc.extract_judges "" = ["Bombay High Court"] ∧
    "Unknown Judge" ∉ Bhc.extract_judges "" := by
  decide

/-- Claim C9 as amended: on any input where no judge pattern matches, each
judge extractor returns its fixed non-empty one-element placeholder list,
never an empty set: Unknown Judge for the SC scraper and Bombay High Court
for the Bombay scraper. -/
theorem judges_no_match_sentinels (text : String) :
    (Sc.judgesRaw text = [] → Sc.extract_judges text = ["Unknown Judge"]) ∧
    (Bhc.judgesRaw text = [] → Bhc.extract_judges text = ["Bombay High Court"]) := by
  constructor
  · intro h
    unfold Sc.extract_judges
    rw [if_pos h]
  · intro h
    unfold Bhc.extract_judges
    rw [if_pos h]

/-- Witness for the amended C9 on the empty page. -/
theorem judges_no_match_sentinels_witness :
    Sc.extract_judges "" = ["Unknown Judge"] ∧
    Bhc.extract_judges "" = ["Bombay High Court"] :=
  ⟨(judges_no_match_sentinels "").1 (by decide), (judges_no_match_sentinels "").2 (by decide)⟩

theorem filter_orderedInsert_eq (a : String × Nat) (l : List (String × Nat)) (s : Nat)
    (ha : a.2 = s) :
    (List.orderedInsert scoredDesc a l).filter (fun x => x.2 == s) =
      a :: l.filter (fun x => x.2 == s) := by
  induction l with
  | nil => simp [List.orderedInsert, ha]
  | cons b t ih =>
    by_cases h : scoredDesc a b
    · simp [List.orderedInsert, h, List.filter_cons, ha]
    · have hb : (b.2 == s) = false := by
        simp only [beq_eq_false_iff_ne, ne_eq]
        simp only [scoredDesc, not_le] at h
        omega
      simp [List.orderedInsert, h, List.filter_cons, hb, ih]

theorem filter_orderedInsert_ne (a : String × Nat) (l : List (String × Nat)) (s : Nat)
    (ha : a.2 ≠ s) :
    (List.orderedInsert scoredDesc a l).filter (fun x => x.2 == s) =
      l.filter (fun x => x.2 == s) := by
  have ha' : (a.2 == s) = false := by simpa using ha
  induction l with
  | nil => simp [List.orderedInsert, ha']
  | cons b t ih =>
    by_cases h : scoredDesc a b
    · simp [List.orderedInsert, h, List.filter_cons, ha']
    · simp [List.orderedInsert, h, List.filter_cons, ih]

theorem filter_sortScored_stable (l : List (String × Nat)) (s : Nat) :
    (sortScored l).filter (fun x => x.2 == s) = l.filter (fun x => x.2 == s) := by
  induction l with
  | nil => rfl
  | cons a t ih =>
    show (List.orderedInsert scoredDesc a (t.insertionSort scoredDesc)).filter _ = _
    by_cases ha : a.2 = s
    · rw [filter_orderedInsert_eq a _ s ha]
      show a :: (sortScored t).filter _ = _
      rw [ih]
      simp [List.filter_cons, ha]
    · rw [filter_orderedInsert_ne a _ s ha]
      show (sortScored t).filter _ = _
      rw [ih]
      have ha' : (a.2 == s) = false := by simpa using ha
      simp [List.filter_cons, ha']

/-- Claim C6: the top-k selection of the keyword heuristic scorer is a stable
sort: the sorted list is a permutation of the scored list, scores are
descending, and for every score value the sentences carrying that score
appear in exactly their original relative order (ties broken by ascending
position of appearance). -/
theorem topk_selection_stable_sort (l : List (String × Nat)) :
    (sortScored l).Sorted scoredDesc ∧
    (sortScored l).Perm l ∧
    ∀ s : Nat, (sortScored l).filter (fun x => x.2 == s) = l.filter (fun x => x.2 == s) := by
  refine ⟨?_, ?_, fun s => filter_sortScored_stable l s⟩
  · haveI : IsTotal (String × Nat) scoredDesc := ⟨fun a b => Nat.le_total b.2 a.2⟩
    haveI : IsTrans (String × Nat) scoredDesc := ⟨fun _ _ _ h₁ h₂ => Nat.le_trans h₂ h₁⟩
    exact List.sorted_insertionSort scoredDesc l
  · exact List.perm_insertionSort scoredDesc l

/-- Claim C8, counterexample: a fragment whose trimmed length is exactly the
threshold of twenty characters is discarded, because the source filter keeps
only fragments strictly longer than twenty characters. -/
theorem segment_len20_fragment_discarded_cx :
    "abcdefghijklmnopqrst" ∈
      segmentFragments "abcdefghijklmnopqrst. This is a proper sentence of reasonable length." ∧
    ("abcdefghijklmnopqrst" : String).length = 20 ∧
    "abcdefghijklmnopqrst" ∉
      sentencesMin "abcdefghijklmnopqrst. This is a proper sentence of reasonable length." 20 := by
  decide

/-- Claim C8 as amended: the segmenter splits on runs of terminal
punctuation, trims whitespace, and retains exactly the fragments whose
trimmed length is strictly greater than the stage minimum of twenty
characters; on the A. B. scenario only the third fragment survives. -/
theorem segment_retains_iff_gt20 :
    (∀ text s, s ∈ sentencesMin text 20 ↔ s ∈ segmentFragments text ∧ 20 < s.length) ∧
    sentencesMin "A. B. This is a proper sentence of reasonable length." 20 =
      ["This is a proper sentence of reasonable length"] := by
  constructor
  · intro text s
    simp [sentencesMin, List.mem_filter]
  · decide

/-- Claim C5, counterexample: an unknown statistical method is not rejected
at the ranker boundary, it is silently dispatched to the LSA default and the
call succeeds; a negative sentence count is not rejected either, the Python
slice silently drops one trailing sentence of the three candidates. -/
theorem sumy_unknown_method_not_rejected_cx :
    chooseSummarizer "quantum" = SumyMethod.lsa ∧
    extract_summary_sumy okOracle longLegalText 4 "quantum" = ["STAT"] ∧
    (extract_key_sentences_regex threeSentenceText (-1)).length = 2 := by
  set_option maxRecDepth 100000 in decide

/-- Claim C5 as amended: extract_summary_sumy maps every method string
outside lsa, lexrank and textrank to the LSA summarizer and behaves exactly
as with lsa (no failure is raised), and a negative count flows into the
Python slice, which drops trailing elements instead of rejecting. -/
theorem sumy_unknown_method_silent_default :
    (∀ (oracle : SumyOracle) (text : String) (n : Int) (m : String),
        m ≠ "lsa" → m ≠ "lexrank" → m ≠ "textrank" →
        extract_summary_sumy oracle text n m = extract_summary_sumy oracle text n "lsa") ∧
    (∀ (l : List (String × Nat)), pyTake (-1) l = l.dropLast) := by
  constructor
  · intro oracle text n m h1 h2 h3
    have hm : chooseSummarizer m = SumyMethod.lsa := by
      simp [chooseSummarizer, h1, h2, h3]
    unfold extract_summary_sumy
    rw [hm]
    rfl
  · intro l
    have h : ¬ ((0 : Int) ≤ -1) := by norm_num
    simp [pyTake, h, List.dropLast_eq_take]

/-- Witness for the amended C5 at a concrete unknown method string. -/
theorem sumy_unknown_method_silent_default_witness :
    extract_summary_sumy okOracle "abc" 4 "quantum" =
      extract_summary_sumy okOracle "abc" 4 "lsa" :=
  sumy_unknown_method_silent_default.1 okOracle "abc" 4 "quantum"
    (by decide) (by decide) (by decide)

theorem mem_addUnique {m : Int} {acc : List String} {s x : String}
    (h : x ∈ addUnique m acc s) : x ∈ acc ∨ x = s := by
  by_cases hc : s ∉ acc ∧ ((acc.length : Int) < m)
  · rw [addUnique, if_pos hc] at h
    rcases List.mem_append.mp h with h | h
    · exact Or.inl h
    · simp at h
      exact Or.inr h
  · rw [addUnique, if_neg hc] at h
    exact Or.inl h

theorem mem_foldl_addUnique {m : Int} :
    ∀ (src acc : List String) (x : String),
      x ∈ src.foldl (addUnique m) acc → x ∈ acc ∨ x ∈ src := by
  intro src
  induction src with
  | nil => exact fun acc x h => Or.inl h
  | cons s rest ih =>
    intro acc x h
    rcases ih (addUnique m acc s) x h with h' | h'
    · rcases mem_addUnique h' with h'' | h''
      · exact Or.inl h''
      · exact Or.inr (by simp [h''])
    · exact Or.inr (List.mem_cons_of_mem s h')

theorem pyTake_subset (n : Int) (l : List α) : pyTake n l ⊆ l := by
  unfold pyTake
  split
  · exact List.take_subset _ _
  · exact List.take_subset _ _

theorem splitRunsGo_no_term :
    ∀ (cs : List Char) (b : Bool) (cur : List Char),
      (∀ c ∈ cur, isTermChar c = false) →
      ∀ f ∈ splitRunsGo cs b cur, ∀ c ∈ f, isTermChar c = false := by
  intro cs
  induction cs with
  | nil =>
    intro b cur hcur f hf c hc
    simp only [splitRunsGo, List.mem_singleton] at hf
    subst hf
    exact hcur c (List.mem_reverse.mp hc)
  | cons a rest ih =>
    intro b cur hcur f hf c hc
    by_cases ht : isTermChar a
    · cases b with
      | true =>
        rw [splitRunsGo, if_pos ht, if_pos rfl] at hf
        exact ih true cur hcur f hf c hc
      | false =>
        rw [splitRunsGo, if_pos ht] at hf
        simp only [Bool.false_eq_true, if_false, List.mem_cons] at hf
        rcases hf with hf | hf
        · subst hf
          exact hcur c (List.mem_reverse.mp hc)
        · exact ih true [] (by simp) f hf c hc
    · rw [splitRunsGo, if_neg ht] at hf
      refine ih false (a :: cur) ?_ f hf c hc
      intro c' hc'
      rcases List.mem_cons.mp hc' with hc' | hc'
      · subst hc'
        exact Bool.not_eq_true _ ▸ ht
      · exact hcur c' hc'

theorem pyStrip_data_subset (s : String) : (pyStrip s).data ⊆ s.data := by
  intro c hc
  have hc₁ : c ∈ (s.data.dropWhile pyIsSpace).reverse.dropWhile pyIsSpace :=
    List.mem_reverse.mp hc
  have hc₂ : c ∈ (s.data.dropWhile pyIsSpace).reverse :=
    (List.dropWhile_sublist pyIsSpace).subset hc₁
  exact (List.dropWhile_sublist pyIsSpace).subset (List.mem_reverse.mp hc₂)

theorem sentencesMin_no_dot_end (text : String) (m : Nat) :
    ∀ s ∈ sentencesMin text m, s.data.getLast? ≠ some '.' := by
  intro s hs hlast
  have hsm : s ∈ segmentFragments text := (List.mem_filter.mp hs).1
  rcases List.mem_map.mp hsm with ⟨f, hf, rfl⟩
  rcases List.mem_map.mp hf with ⟨l, hl, rfl⟩
  have hdot : '.' ∈ (pyStrip ⟨l⟩).data := List.mem_of_mem_getLast? (by rw [hlast]; rfl)
  have hdot' : '.' ∈ l := pyStrip_data_subset ⟨l⟩ hdot
  have := splitRunsGo_no_term text.data false [] (by simp) l hl '.' hdot'
  simp [isTermChar] at this

theorem mem_extract_key_sentences_regex {text : String} {n : Int} {x : String}
    (h : x ∈ extract_key_sentences_regex text n) : x ∈ sentencesMin text 20 := by
  unfold extract_key_sentences_regex at h
  by_cases hc : text = "" ∨ (pyStrip text).length < 100
  · rw [if_pos hc] at h
    simp at h
  · rw [if_neg hc] at h
    rcases List.mem_map.mp h with ⟨pair, hp, rfl⟩
    have hp₁ : pair ∈ sortScored ((sentencesMin text 20).map (fun s => (s, scoreSentence s))) :=
      pyTake_subset _ _ hp
    have hp₂ : pair ∈ (sentencesMin text 20).map (fun s => (s, scoreSentence s)) := by
      simpa [sortScored] using hp₁
    rcases List.mem_map.mp hp₂ with ⟨s, hs, hpair⟩
    rw [← hpair]
    exact hs

theorem mem_extract_hybrid_summary {oracle : SumyOracle} {text : String} {n : Int} {x : String}
    (h : x ∈ extract_hybrid_summary oracle text n) :
    x ∈ extract_key_sentences_regex text n ∨
    x ∈ extract_summary_sumy oracle text n "lsa" ∨
    x ∈ sentencesMin text 50 := by
  simp only [extract_hybrid_summary] at h
  split at h
  · rcases mem_foldl_addUnique _ _ _ h with h' | h'
    · rcases mem_foldl_addUnique _ _ _ h' with h'' | h''
      · rcases mem_foldl_addUnique _ _ _ h'' with h₃ | h₃
        · simp at h₃
        · exact Or.inl h₃
      · exact Or.inr (Or.inl h'')
    · exact Or.inr (Or.inr h')
  · rcases mem_foldl_addUnique _ _ _ h with h' | h'
    · rcases mem_foldl_addUnique _ _ _ h' with h'' | h''
      · simp at h''
      · exact Or.inl h''
    · exact Or.inr (Or.inl h')

theorem mem_selected_sentences {oracle : SumyOracle} {text : String} {n : Int} {x : String}
    (h : x ∈ selected_sentences oracle text n) :
    x ∈ extract_hybrid_summary oracle text n ∨
    x ∈ extract_key_sentences_regex text n ∨
    x ∈ sentencesMin text 30 := by
  simp only [selected_sentences] at h
  by_cases hA : extract_hybrid_summary oracle text n = []
  · rw [if_pos hA] at h
    by_cases hB : extract_key_sentences_regex text n = []
    · rw [if_pos hB] at h
      exact Or.inr (Or.inr (pyTake_subset _ _ h))
    · rw [if_neg hB] at h
      exact Or.inr (Or.inl h)
  · rw [if_neg hA] at h
    rw [if_neg hA] at h
    exact Or.inl h

theorem selected_sentences_no_dot_end (oracle : SumyOracle) (text : String) (n : Int)
    (h2 : ∀ s ∈ extract_summary_sumy oracle text n "lsa", s.data.getLast? ≠ some '.') :
    ∀ x ∈ selected_sentences oracle text n, x.data.getLast? ≠ some '.' := by
  intro x hx
  rcases mem_selected_sentences hx with h | h | h
  · rcases mem_extract_hybrid_summary h with h' | h' | h'
    · exact sentencesMin_no_dot_end text 20 x (mem_extract_key_sentences_regex h')
    · exact h2 x h'
    · exact sentencesMin_no_dot_end text 50 x h'
  · exact sentencesMin_no_dot_end text 20 x (mem_extract_key_sentences_regex h)
  · exact sentencesMin_no_dot_end text 30 x h

theorem pyJoin_dotspace_no_dot_end :
    ∀ (sel : List String), (∀ s ∈ sel, s.data.getLast? ≠ some '.') →
      (pyJoin ". " sel).data.getLast? ≠ some '.' := by
  intro sel
  induction sel with
  | nil => intro _; simp [pyJoin]
  | cons s rest ih =>
    intro hP
    cases rest with
    | nil => exact hP s (by simp)
    | cons s₂ rest₂ =>
      show ((s ++ ". " ++ pyJoin ". " (s₂ :: rest₂)).data.getLast? ≠ some '.')
      rw [String.data_append]
      cases hj : (pyJoin ". " (s₂ :: rest₂)).data with
      | nil =>
        rw [List.append_nil, String.data_append]
        rw [List.getLast?_append_of_ne_nil _ (show (". ".data : List Char) ≠ [] by decide)]
        decide
      | cons c t =>
        rw [List.getLast?_append_of_ne_nil _ (by simp)]
        rw [← hj]
        exact ih (fun s' hs' => hP s' (List.mem_cons_of_mem _ hs'))

theorem summary_step_props (sel : List String)
    (hP : ∀ s ∈ sel, s.data.getLast? ≠ some '.') :
    pyEndsWithDot (pyJoin ". " sel) = false ∧
    (pyJoin ". " sel ++ ".").data.getLast? = some '.' ∧
    (pyJoin ". " sel ++ ".").data.dropLast.getLast? ≠ some '.' := by
  have hnd := pyJoin_dotspace_no_dot_end sel hP
  refine ⟨?_, ?_, ?_⟩
  · unfold pyEndsWithDot
    simpa using hnd
  · rw [String.data_append]
    exact List.getLast?_concat _
  · rw [String.data_append]
    rw [show (("." : String).data) = ['.'] from rfl, List.dropLast_concat]
    exact hnd

theorem title_prepend_props (t j : String) (hjd : j.data.getLast? ≠ some '.') :
    ((t ++ ": " ++ (j ++ ".")).data.getLast? = some '.') ∧
    ((t ++ ": " ++ (j ++ ".")).data.dropLast.getLast? ≠ some '.') := by
  rw [String.data_append, String.data_append, String.data_append]
  rw [show (("." : String).data) = ['.'] from rfl]
  constructor
  · rw [← List.append_assoc]
    exact List.getLast?_concat _
  · rw [← List.append_assoc, List.dropLast_concat]
    cases hj : j.data with
    | nil =>
      rw [List.append_nil]
      rw [List.getLast?_append_of_ne_nil _ (show (": ".data : List Char) ≠ [] by decide)]
      decide
    | cons c cs =>
      rw [List.getLast?_append_of_ne_nil _ (by simp), ← hj]
      exact hjd

/-- Claim C1: for every non-empty input text (and a statistical contribution
whose sentences do not themselves end in a period, which holds of the
punctuation-free segmented sentences the specification feeds the ranker),
extract_case_summary returns a non-empty string that ends with exactly one
terminal period: the selected sentences are joined with a period-space
separator and a single final period is appended. -/
theorem compose_summary_single_terminal_period (oracle : SumyOracle)
    (case_text case_title : String) (max_sentences : Int)
    (h1 : case_text ≠ "")
    (h2 : ∀ s ∈ extract_summary_sumy oracle case_text max_sentences "lsa",
        s.data.getLast? ≠ some '.') :
    extract_case_summary oracle case_text case_title max_sentences ≠ "" ∧
    (extract_case_summary oracle case_text case_title max_sentences).data.getLast? = some '.' ∧
    (extract_case_summary oracle case_text case_title max_sentences).data.dropLast.getLast?
      ≠ some '.' := by
  have hP := selected_sentences_no_dot_end oracle case_text max_sentences h2
  have hprops := summary_step_props (selected_sentences oracle case_text max_sentences) hP
  have hform : extract_case_summary oracle case_text case_title max_sentences =
      (if case_title = "" then
        pyJoin ". " (selected_sentences oracle case_text max_sentences) ++ "."
      else case_title ++ ": " ++
        (pyJoin ". " (selected_sentences oracle case_text max_sentences) ++ ".")) := by
    unfold extract_case_summary
    rw [if_neg h1]
    show (if case_title = "" then
            (if pyEndsWithDot (pyJoin ". " (selected_sentences oracle case_text max_sentences)) then
              pyJoin ". " (selected_sentences oracle case_text max_sentences)
            else pyJoin ". " (selected_sentences oracle case_text max_sentences) ++ ".")
          else case_title ++ ": " ++
            (if pyEndsWithDot (pyJoin ". " (selected_sentences oracle case_text max_sentences)) then
              pyJoin ". " (selected_sentences oracle case_text max_sentences)
            else pyJoin ". " (selected_sentences oracle case_text max_sentences) ++ ".")) = _
    rw [hprops.1]
    simp
  rw [hform]
  by_cases ht : case_title = ""
  · rw [if_pos ht]
    refine ⟨?_, hprops.2.1, hprops.2.2⟩
    intro hemp
    have : (pyJoin ". " (selected_sentences oracle case_text max_sentences) ++ ".").data = [] := by
      rw [hemp]
    rw [String.data_append] at this
    simp at this
  · rw [if_neg ht]
    have hp := title_prepend_props case_title
      (pyJoin ". " (selected_sentences oracle case_text max_sentences))
      (pyJoin_dotspace_no_dot_end _ hP)
    refine ⟨?_, hp.1, hp.2⟩
    intro hemp
    have : (case_title ++ ": " ++
        (pyJoin ". " (selected_sentences oracle case_text max_sentences) ++ ".")).data = [] := by
      rw [hemp]
    rw [String.data_append, String.data_append] at this
    simp at this

/-- Witness for C1 at a concrete text, title and failing oracle. -/
theorem compose_summary_single_terminal_period_witness :
    extract_case_summary errOracle "x" "" 4 ≠ "" ∧
    (extract_case_summary errOracle "x" "" 4).data.getLast? = some '.' ∧
    (extract_case_summary errOracle "x" "" 4).data.dropLast.getLast? ≠ some '.' :=
  compose_summary_single_terminal_period errOracle "x" "" 4 (by decide)
    (by
      intro s hs
      have h : extract_summary_sumy errOracle "x" 4 "lsa" = [] := rfl
      rw [h] at hs
      simp at hs)
